import Mathlib

/-!
Shallow embedding of the poker server (Rust-Poker-Server) core:
deck, hand evaluator, betting actions, per-seat state-machine bookkeeping,
lobby membership and turn rotation, translated from
`src/deck/mod.rs`, `src/games/mod.rs`, `src/lobby/mod.rs`, `src/player/mod.rs`.

Machine integers (`i32`) are modelled as `Int`; all values the code actually
manipulates in the proved regions are non-negative, where the truncated (`Rust`)
and Euclidean (`Lean`) division and remainder agree.  Rust panics (vector
indexing out of bounds) are modelled with `Option`.  The `tokio`/`warp`
plumbing (channels, sockets, database handles) carries no game state and is
dropped from the structures.
-/

namespace Poker

/-! ## Constants (src/lobby/mod.rs, src/player/mod.rs) -/

/-- Player state `FOLDED` (src/player/mod.rs line 9). -/
def FOLDED : Int := 1

/-- Player state `ALL_IN` (src/player/mod.rs line 10). -/
def ALL_IN : Int := 2

/-- Player state `CHECKED` (src/player/mod.rs line 11). -/
def CHECKED : Int := 3

/-- Player state `CALLED` (src/player/mod.rs line 12). -/
def CALLED : Int := 4

/-- Player state `RAISED` (src/player/mod.rs line 13). -/
def RAISED : Int := 8

/-- Player state `IN_LOBBY` (src/player/mod.rs line 14). -/
def IN_LOBBY : Int := 5

/-- Player state `IN_GAME` (src/player/mod.rs line 16). -/
def IN_GAME : Int := 7

/-- Player state `SPECTATOR` (src/player/mod.rs line 18). -/
def SPECTATOR : Int := 9

/-- Game state `JOINABLE` (src/lobby/mod.rs line 24). -/
def JOINABLE : Int := 0

/-- Game state `START_OF_ROUND` (src/lobby/mod.rs line 25). -/
def START_OF_ROUND : Int := 1

/-- Game state `ANTE` (src/lobby/mod.rs line 26). -/
def ANTE : Int := 2

/-- Game state `DEAL_CARDS` (src/lobby/mod.rs line 27). -/
def DEAL_CARDS : Int := 3

/-- Game state `FIRST_BETTING_ROUND` (src/lobby/mod.rs line 28). -/
def FIRST_BETTING_ROUND : Int := 4

/-- Game state `DRAW` (src/lobby/mod.rs line 29). -/
def DRAW : Int := 5

/-- Game state `SECOND_BETTING_ROUND` (src/lobby/mod.rs line 30). -/
def SECOND_BETTING_ROUND : Int := 6

/-- Game state `SHOWDOWN` (src/lobby/mod.rs line 31). -/
def SHOWDOWN : Int := 7

/-- Game state `END_OF_ROUND` (src/lobby/mod.rs line 32). -/
def END_OF_ROUND : Int := 8

/-- Game state `UPDATE_DB` (src/lobby/mod.rs line 33). -/
def UPDATE_DB : Int := 9

/-- Return code `SUCCESS` (src/lobby/mod.rs line 49). -/
def SUCCESS : Int := 100

/-- Return code `FAILED` (src/lobby/mod.rs line 50). -/
def FAILED : Int := 101

/-- Return code `GAME_LOBBY_EMPTY` (src/lobby/mod.rs line 52). -/
def GAME_LOBBY_EMPTY : Int := 103

/-- Return code `GAME_LOBBY_NOT_EMPTY` (src/lobby/mod.rs line 53). -/
def GAME_LOBBY_NOT_EMPTY : Int := 104

/-- Lobby state / return code `GAME_LOBBY_FULL` (src/lobby/mod.rs line 54). -/
def GAME_LOBBY_FULL : Int := 105

/-- Game type `FIVE_CARD_DRAW` (src/lobby/mod.rs line 56). -/
def FIVE_CARD_DRAW : Int := 10

/-- Game type `SEVEN_CARD_STUD` (src/lobby/mod.rs line 57). -/
def SEVEN_CARD_STUD : Int := 11

/-- Game type `TEXAS_HOLD_EM` (src/lobby/mod.rs line 58). -/
def TEXAS_HOLD_EM : Int := 12

/-- Default seat cap `MAX_PLAYER_COUNT` (src/lobby/mod.rs line 22). -/
def MAX_PLAYER_COUNT : Int := 5

/-! ## Deck (src/deck/mod.rs) -/

/-- The `Deck` struct: a cursor and the 52-card vector
(src/deck/mod.rs lines 7-11). -/
structure Deck where
  next_card_index : Int
  cards : List Int
deriving Repr, DecidableEq

/-- `Deck::new()` : fresh deck `(0..52).collect()` with cursor `0`
(src/deck/mod.rs lines 15-17). -/
def Deck.new : Deck :=
  { next_card_index := 0, cards := (List.range 52).map Int.ofNat }

/-- `Deck::deal()` (src/deck/mod.rs lines 29-33): return
`cards[next_card_index]` and advance the cursor.  The Rust indexing
`self.cards[self.next_card_index as usize]` panics when the cursor (cast
to `usize`) is out of bounds; the panic is modelled as `none`. -/
def Deck.deal (d : Deck) : Option (Int × Deck) :=
  if 0 ≤ d.next_card_index ∧ d.next_card_index.toNat < d.cards.length then
    some (d.cards.getD d.next_card_index.toNat 0,
          { d with next_card_index := d.next_card_index + 1 })
  else
    none

/-- Repeated dealing: `n` successive `Deck::deal()` calls, `none` as soon
as one of them panics. -/
def Deck.dealIter (d : Deck) : Nat → Option Deck
  | 0 => some d
  | n + 1 =>
    match d.deal with
    | some (_, d') => d'.dealIter n
    | none => none

/-! ## Players and lobbies (src/lobby/mod.rs) -/

/-- The `Player` struct of src/lobby/mod.rs lines 63-78, without the
channel/socket/back-reference handles (`tx`, `rx`, `lobby`), which carry
no game state. -/
structure Player where
  name : String
  id : String
  hand : List Int
  wallet : Int
  state : Int
  current_bet : Int
  dealer : Bool
  ready : Bool
  games_played : Int
  games_won : Int
deriving Repr, DecidableEq

/-- The `Lobby` struct of src/lobby/mod.rs lines 171-192, without the
registry (`lobbies`, `lobby_names_and_status`) and database handles. -/
structure Lobby where
  name : String
  players : List Player
  deck : Deck
  pot : Int
  current_player_count : Int
  max_player_count : Int
  game_state : Int
  first_betting_player : Int
  game_type : Int
  current_max_bet : Int
  community_cards : List Int
  current_player_turn : String
  current_player_index : Int
  turns_remaining : Int
  spectators : List Player
deriving Repr, DecidableEq

/-- `Lobby::new(lobby_type, lobby_name)` (src/lobby/mod.rs lines 195-232):
seat cap 5/7/10 by variant, empty seats, fresh deck, `game_state = JOINABLE`. -/
def Lobby.new (lobby_type : Int) (lobby_name : String) : Lobby :=
  let player_count : Int :=
    if lobby_type = FIVE_CARD_DRAW then 5
    else if lobby_type = SEVEN_CARD_STUD then 7
    else if lobby_type = TEXAS_HOLD_EM then 10
    else MAX_PLAYER_COUNT
  { name := lobby_name
    players := []
    deck := Deck.new
    current_player_count := 0
    max_player_count := player_count
    pot := 0
    game_state := JOINABLE
    first_betting_player := 0
    game_type := lobby_type
    current_max_bet := 0
    community_cards := []
    current_player_turn := ""
    current_player_index := 0
    turns_remaining := 0
    spectators := [] }

/-- Convenience constructor for concrete seats in examples: the fields the
game logic never writes here (`id`, `dealer`, `ready`, stats) are defaulted. -/
def mkPlayer (name : String) (wallet : Int) (state : Int) (current_bet : Int)
    (hand : List Int) : Player :=
  { name := name, id := "", hand := hand, wallet := wallet, state := state
    current_bet := current_bet, dealer := false, ready := false
    games_played := 0, games_won := 0 }

/-! ## Betting actions (src/games/mod.rs, `betting_round`, lines 181-260) -/

/-- The play-action subset of the tagged `ClientMessage` enum
(src/main.rs lines 72-90) consumed by `betting_round`; every tag the
`match` in `betting_round` does not name falls into its `_` arm, modelled
by `Other`. -/
inductive ClientMessage where
  | Check
  | Fold
  | Call
  | Raise (amount : Int)
  | AllIn
  | Other
deriving Repr, DecidableEq

/-- `betting_round(player, lobby, action)` (src/games/mod.rs lines 181-260).
Returns `(valid_action, reset, player', lobby')` where the last two
components carry the mutations the Rust code performs on `player` and on
the lobby's `pot` / `current_max_bet`. -/
def betting_round (player : Player) (lobby : Lobby) (action : ClientMessage) :
    Bool × Bool × Player × Lobby :=
  let player_prev_bet := player.current_bet
  let current_max_bet := lobby.current_max_bet
  match action with
  | .Check =>
    -- only check when there is no bet to call
    if player.current_bet = lobby.current_max_bet ∧ lobby.current_max_bet = 0 then
      (true, false, { player with state := CHECKED }, lobby)
    else
      (false, false, player, lobby)
  | .Fold =>
    (true, false, { player with state := FOLDED }, lobby)
  | .Call =>
    let call_amount := current_max_bet - player_prev_bet
    if call_amount ≤ player.wallet then
      let wallet' := player.wallet - call_amount
      (true, false,
        { player with
            wallet := wallet'
            current_bet := current_max_bet
            state := if wallet' = 0 then ALL_IN else CALLED },
        { lobby with pot := lobby.pot + call_amount })
    else
      (false, false, player, lobby)
  | .Raise amount =>
    if 0 < amount ∧ amount ≤ player.wallet then
      if current_max_bet - player_prev_bet < amount then
        let wallet' := player.wallet - amount
        let bet' := player.current_bet + amount
        (true, true,
          { player with
              wallet := wallet'
              current_bet := bet'
              state := if wallet' = 0 then ALL_IN else RAISED },
          { lobby with pot := lobby.pot + amount, current_max_bet := bet' })
      else
        (false, false, player, lobby)
    else
      (false, false, player, lobby)
  | .AllIn =>
    let all_in_amount := player.wallet
    let bet' := player.current_bet + all_in_amount
    let player' := { player with state := ALL_IN, wallet := 0, current_bet := bet' }
    let lobby' := { lobby with pot := lobby.pot + all_in_amount }
    if current_max_bet < bet' then
      (true, true, player', { lobby' with current_max_bet := bet' })
    else
      (true, false, player', lobby')
  | .Other =>
    (false, false, player, lobby)

/-! ## Lobby turn rotation and per-message bookkeeping -/

/-- Rust vector indexing `v[i as usize]` for an `i32` index: a negative
`i32` casts to a huge `usize` and panics, as does an index past the end;
both are modelled as `none`. -/
def idxGet (ps : List Player) (i : Int) : Option Player :=
  if 0 ≤ i then ps[i.toNat]? else none

/-- The seek loop of `Lobby::get_next_player` (src/lobby/mod.rs lines
625-632): starting at seat `i`, walk forward modulo
`current_player_count` until a non-`FOLDED` seat is found, then record
that seat in `current_player_index` / `current_player_turn`.  The Rust
loop has no exit when every seat is `FOLDED`; the unbounded search is
modelled with explicit fuel, `none` meaning the loop has not exited
within `fuel` iterations. -/
def get_next_player_loop (l : Lobby) (i : Int) : Nat → Option Lobby
  | 0 => none
  | fuel + 1 =>
    match idxGet l.players i with
    | none => none
    | some p =>
      if p.state ≠ FOLDED then
        some { l with current_player_index := i, current_player_turn := p.name }
      else
        get_next_player_loop l ((i + 1) % l.current_player_count) fuel

/-- `Lobby::get_next_player(reset)` (src/lobby/mod.rs lines 619-633):
place the cursor at `first_betting_player` when `reset`, else advance it
by one modulo `current_player_count`, then seek the next non-`FOLDED`
seat. -/
def get_next_player (l : Lobby) (reset : Bool) (fuel : Nat) : Option Lobby :=
  let start :=
    if reset then l.first_betting_player
    else (l.current_player_index + 1) % l.current_player_count
  get_next_player_loop l start fuel

/-- Modelled from the spec: `Lobby::update_player_reference` is called from
src/games/mod.rs (lines 966, 1086, 1716: "update the server lobby player
reference with updated clone data") but its definition is not under src/;
it replaces the seat whose `name` matches with the updated clone. -/
def update_player_reference (ps : List Player) (p : Player) : List Player :=
  ps.map fun q => if q.name = p.name then p else q

/-- Modelled from the spec: `Lobby::check_end_game` is called from
src/games/mod.rs (lines 986, 1105, 1735) but its definition is not under
src/; the spec (section 4.4) states it is "true when at most one
non-FOLDED, non-disconnected seat remains". -/
def check_end_game (l : Lobby) : Bool :=
  (l.players.filter fun p => p.state ≠ FOLDED).length ≤ 1

/-- Modelled from the spec: `Lobby::clear_betting` is called from
src/games/mod.rs (lines 1106, 1116, 1736, 1746) but its definition is not
under src/; the spec (section 4.4) states it zeroes every `current_bet`
and `current_max_bet` between betting rounds. -/
def clear_betting (l : Lobby) : Lobby :=
  { l with
      players := l.players.map fun p => { p with current_bet := 0 }
      current_max_bet := 0 }

/-- The bookkeeping run after a betting action is accepted in the Five
Card Draw betting phases (src/games/mod.rs lines 1103-1123): decrement
`turns_remaining`; on `check_end_game` clear the bets and jump to
`SHOWDOWN`; when the counter hits zero advance the phase, restore the
counter, clear the bets and reset the cursor; otherwise advance the
cursor by one seat. -/
def betting_post_action (l : Lobby) (fuel : Nat) : Option Lobby :=
  let l1 := { l with turns_remaining := l.turns_remaining - 1 }
  if check_end_game l1 then
    some { clear_betting l1 with game_state := SHOWDOWN }
  else if l1.turns_remaining = 0 then
    let l2 :=
      if l1.game_state = FIRST_BETTING_ROUND then
        { l1 with game_state := DRAW }
      else if l1.game_state = SECOND_BETTING_ROUND then
        { l1 with game_state := SHOWDOWN }
      else l1
    let l3 := clear_betting { l2 with turns_remaining := l2.current_player_count }
    get_next_player l3 true fuel
  else
    get_next_player l1 false fuel

/-- Processing of one inbound message from the on-turn, non-folded,
non-all-in seat during `FIRST_BETTING_ROUND | SECOND_BETTING_ROUND`
(src/games/mod.rs lines 1030-1126): validate through `betting_round`;
an invalid action leaves every piece of state untouched and the seat
on-turn (result flag `false`); a valid one writes the player clone back,
resets `turns_remaining` to `current_player_count` when the action lifted
the high bet, and runs the post-action bookkeeping (result flag `true`). -/
def betting_message_step (l : Lobby) (p : Player) (msg : ClientMessage)
    (fuel : Nat) : Option (Lobby × Player × Bool) :=
  match betting_round p l msg with
  | (valid, reset, p', l1) =>
    if valid then
      let l2 := { l1 with players := update_player_reference l1.players p' }
      let l3 :=
        if reset then { l2 with turns_remaining := l2.current_player_count }
        else l2
      match betting_post_action l3 fuel with
      | some l4 => some (l4, p', true)
      | none => none
    else
      some (l, p, false)

/-- The per-seat `ANTE` state work (src/games/mod.rs lines 962-972): a
seat with wallet above 10 pays the ante of 10 into the pot and counts a
played game; any other seat is marked `FOLDED`. -/
def ante_step (l : Lobby) (p : Player) : Lobby × Player :=
  if 10 < p.wallet then
    let p' := { p with wallet := p.wallet - 10, games_played := p.games_played + 1 }
    ({ l with players := update_player_reference l.players p', pot := l.pot + 10 }, p')
  else
    let p' := { p with state := FOLDED }
    ({ l with players := update_player_reference l.players p' }, p')

/-! ## Stud bring-in and Hold'em blinds (src/games/mod.rs) -/

/-- In-place update of one seat of the `players` vector. -/
def updateAt (f : Player → Player) : List Player → Nat → List Player
  | [], _ => []
  | p :: ps, 0 => f p :: ps
  | p :: ps, n + 1 => p :: updateAt f ps n

/-- The scan of `bring_in` (src/games/mod.rs lines 672-681): walk the
seats in order keeping the first seat whose up-card `hand[2] % 13` is
strictly below the running minimum; folded seats are skipped.  `i` is the
index of the head of the remaining list, `(low, lowIdx)` the running
state (initially `14` and `0`). -/
def bring_in_scan : List Player → Nat → Int → Nat → Int × Nat
  | [], _, low, lowIdx => (low, lowIdx)
  | p :: ps, i, low, lowIdx =>
    if p.state ≠ FOLDED ∧ p.hand.getD 2 0 % 13 < low then
      bring_in_scan ps (i + 1) (p.hand.getD 2 0 % 13) i
    else
      bring_in_scan ps (i + 1) low lowIdx

/-- `bring_in(lobby)` (src/games/mod.rs lines 670-690): the seat with the
lowest up-card rank (ties kept at the earlier seat - the scan only moves
on a strictly smaller rank, and no suit is ever consulted) pays the fixed
bring-in of 15 from its wallet into the pot and is marked `CALLED`.
`first_betting_player` is not touched. -/
def bring_in (l : Lobby) : Lobby :=
  let sel := bring_in_scan l.players 0 14 0
  let pay : Player → Player := fun p =>
    { p with wallet := p.wallet - 15, current_bet := p.current_bet + 15, state := CALLED }
  { l with players := updateAt pay l.players sel.2, pot := l.pot + 15 }

/-- `blinds(lobby)` (src/games/mod.rs lines 728-759): the seats at
`first_betting_player + 1` and `+ 2` (mod count) pay the small blind 5
and the big blind 10 unconditionally; both go to the pot and
`current_max_bet` becomes the big blind. -/
def blinds (l : Lobby) : Lobby :=
  let small_blind_player_i := (l.first_betting_player + 1) % l.current_player_count
  let big_blind_player_i := (l.first_betting_player + 2) % l.current_player_count
  let big_blind : Int := 10
  let small_blind : Int := 5
  let ps1 := updateAt
    (fun p => { p with wallet := p.wallet - small_blind,
                       current_bet := p.current_bet + small_blind })
    l.players small_blind_player_i.toNat
  let ps2 := updateAt
    (fun p => { p with wallet := p.wallet - big_blind,
                       current_bet := p.current_bet + big_blind })
    ps1 big_blind_player_i.toNat
  { l with players := ps2, pot := l.pot + small_blind + big_blind,
           current_max_bet := big_blind }

/-! ## Lobby membership (src/lobby/mod.rs, src/player/mod.rs) -/

/-- `Lobby::add_player` (src/lobby/mod.rs lines 246-256): push the seat
(state forced to `IN_LOBBY`), bump the count, and flip `game_state` to
`GAME_LOBBY_FULL` exactly when the new count equals `max_player_count`,
else back to `JOINABLE`.  No capacity check is performed. -/
def add_player (l : Lobby) (p : Player) : Lobby :=
  let players' := l.players ++ [{ p with state := IN_LOBBY }]
  let count' := l.current_player_count + 1
  { l with
      players := players'
      current_player_count := count'
      game_state := if count' = l.max_player_count then GAME_LOBBY_FULL else JOINABLE }

/-- `Lobby::add_spectator` (src/lobby/mod.rs lines 258-267). -/
def add_spectator (l : Lobby) (p : Player) : Lobby :=
  { l with spectators := l.spectators ++ [p] }

/-- `Lobby::remove_player` (src/lobby/mod.rs lines 269-285): drop the
seat by name, decrement the count, and report emptiness; a non-empty
lobby is put back to `JOINABLE`. -/
def remove_player (l : Lobby) (username : String) : Int × Lobby :=
  let players' := l.players.filter fun p => p.name ≠ username
  let count' := l.current_player_count - 1
  if count' = 0 then
    (GAME_LOBBY_EMPTY, { l with players := players', current_player_count := count' })
  else
    (GAME_LOBBY_NOT_EMPTY,
      { l with players := players', current_player_count := count', game_state := JOINABLE })

/-- The body of `Player::player_join_lobby` for the lobby whose name
matched (src/player/mod.rs lines 43-78 = src/lobby/mod.rs lines 133-168):
spectators are always admitted; a non-spectating join is refused with
`FAILED` only when `START_OF_ROUND <= game_state <= END_OF_ROUND`
(a game in progress), and otherwise admitted through `add_player`. -/
def player_join_lobby (l : Lobby) (p : Player) (spectate : Bool) : Int × Lobby :=
  if spectate then
    (SUCCESS, add_spectator l { p with state := SPECTATOR })
  else if START_OF_ROUND ≤ l.game_state ∧ l.game_state ≤ END_OF_ROUND then
    (FAILED, l)
  else
    (SUCCESS, add_player l p)

/-! ## Hand evaluator (src/games/mod.rs, `get_hand_type`, lines 537-620) -/

/-- The rank used for scoring: `card % 13`, with `0` (Ace) promoted to
`13` (src/games/mod.rs lines 540-543). -/
def rank_of (card : Int) : Int :=
  if card % 13 ≠ 0 then card % 13 else 13

/-- The sorted rank vector `ranks` of `get_hand_type`
(src/games/mod.rs lines 540-544). -/
def hand_ranks_sorted (hand : List Int) : List Int :=
  (hand.map rank_of).insertionSort (· ≤ ·)

/-- The `flush` test of `get_hand_type` (src/games/mod.rs lines 546-549):
every suit `card / 13` equals the first one (`suits[0]`). -/
def hand_is_flush (hand : List Int) : Bool :=
  let suits := hand.map (· / 13)
  suits.all fun s => s = suits.headD 0

/-- `get_hand_type(hand)` (src/games/mod.rs lines 537-620) for a 5-card
hand, with the `for` loops over the sorted rank vector unrolled.  The
Rust function asserts `hand.len() == 5`; other lengths fall into the
final catch-all arm here and are never used under that assertion. -/
def get_hand_type (hand : List Int) : Int × Int × Int × Int × Int × Int :=
  match hand_ranks_sorted hand with
  | [r0, r1, r2, r3, r4] =>
    let flush := hand_is_flush hand
    let straight := r1 = r0 + 1 ∧ r2 = r1 + 1 ∧ r3 = r2 + 1 ∧ r4 = r3 + 1
    if flush ∧ straight then
      (8, r4, r4, 0, 0, 0)
    else if r0 = r1 ∧ r0 = r2 ∧ r0 = r3 then
      (7, r0, r4, 0, 0, 0)
    else if r1 = r2 ∧ r1 = r3 ∧ r1 = r4 then
      (7, r1, r0, 0, 0, 0)
    else if (r0 = r1 ∧ r2 = r3 ∧ r2 = r4) ∨ (r0 = r1 ∧ r1 = r2 ∧ r3 = r4) then
      (6, r2, r0, 0, 0, 0)
    else if flush then
      (5, r4, r3, r2, r1, r0)
    else if straight then
      (4, r4, 0, 0, 0, 0)
    else if r0 = r1 ∧ r0 = r2 then
      (3, r0, r4, r3, 0, 0)
    else if r1 = r2 ∧ r1 = r3 then
      (3, r1, r4, r0, 0, 0)
    else if r2 = r3 ∧ r2 = r4 then
      (3, r2, r1, r0, 0, 0)
    else if r0 = r1 ∧ r2 = r3 then
      (2, max r0 r2, min r0 r2, r4, 0, 0)
    else if r0 = r1 ∧ r3 = r4 then
      (2, max r0 r3, min r0 r3, r2, 0, 0)
    else if r1 = r2 ∧ r3 = r4 then
      (2, max r1 r3, min r1 r3, r0, 0, 0)
    else if r0 = r1 then
      (1, r0, r4, r3, r2, 0)
    else if r1 = r2 then
      (1, r1, r4, r3, r0, 0)
    else if r2 = r3 then
      (1, r2, r4, r1, r0, 0)
    else if r3 = r4 then
      (1, r3, r2, r1, r0, 0)
    else
      (0, r4, r3, r2, r1, r0)
  | _ => (0, 0, 0, 0, 0, 0)

/-! ## Concrete fixtures used by the closed theorems and witnesses -/

/-- A Seven Card Stud table after the first deal where the only seat is
broke: wallet `0`, three cards dealt (two face-down, the up-card a Two of
Hearts, card `1`). -/
def exBrokeStud : Lobby :=
  { Lobby.new SEVEN_CARD_STUD "broke" with
      players := [mkPlayer "P1" 0 IN_GAME 0 [53, 66, 1]]
      current_player_count := 1 }

/-- A Seven Card Stud table after the first deal with two seats whose
up-cards tie in rank: seat 0 shows the Two of Hearts (card `1`), seat 1
the Two of Spades (card `27`); `first_betting_player` is seat 1. -/
def exStudTie : Lobby :=
  { Lobby.new SEVEN_CARD_STUD "tie" with
      players := [mkPlayer "P1" 1000 IN_GAME 0 [53, 66, 1],
                  mkPlayer "P2" 1000 IN_GAME 0 [55, 56, 27]]
      current_player_count := 2
      first_betting_player := 1 }

/-- A Five Card Draw lobby at capacity: five seats, `current_player_count
= max_player_count = 5`, `game_state = GAME_LOBBY_FULL`. -/
def exFullLobby : Lobby :=
  { Lobby.new FIVE_CARD_DRAW "full" with
      players := [mkPlayer "p1" 1000 IN_LOBBY 0 [], mkPlayer "p2" 1000 IN_LOBBY 0 [],
                  mkPlayer "p3" 1000 IN_LOBBY 0 [], mkPlayer "p4" 1000 IN_LOBBY 0 [],
                  mkPlayer "p5" 1000 IN_LOBBY 0 []]
      current_player_count := 5
      game_state := GAME_LOBBY_FULL }

/-- A sixth joiner knocking on `exFullLobby`. -/
def exJoiner : Player := mkPlayer "p6" 1000 IN_LOBBY 0 []

/-- The seat about to raise in the four-seat first-betting-round
scenario: seat `C`, wallet `990`, no current bet. -/
def exSeatC : Player := mkPlayer "C" 990 IN_GAME 0 [10, 11, 12, 13, 14]

/-- A four-seat Five Card Draw first betting round where seats `A` and
`B` have checked and seat `C` (cursor position 2) is on-turn. -/
def exFourSeats : Lobby :=
  { Lobby.new FIVE_CARD_DRAW "four" with
      players := [mkPlayer "A" 990 CHECKED 0 [0, 1, 2, 3, 4],
                  mkPlayer "B" 990 CHECKED 0 [5, 6, 7, 8, 9],
                  exSeatC,
                  mkPlayer "D" 990 IN_GAME 0 [15, 16, 17, 18, 19]]
      current_player_count := 4
      game_state := FIRST_BETTING_ROUND
      current_player_index := 2
      current_player_turn := "C"
      turns_remaining := 2 }

/-! ## Theorems -/

/-- C3: a `Check` by the on-turn player is accepted exactly when
`current_max_bet == 0` and the player has `current_bet == 0` (the Rust
guard `current_bet == current_max_bet && current_max_bet == 0` says the
same); an accepted check only flips the state to `CHECKED`, and a
rejected one leaves the player, the lobby and the on-turn seat entirely
unchanged. -/
theorem check_accepted_iff_no_outstanding_bet (p : Player) (l : Lobby) :
    ((betting_round p l .Check).1 = true ↔
      l.current_max_bet = 0 ∧ p.current_bet = 0)
    ∧ ((betting_round p l .Check).1 = true →
        (betting_round p l .Check).2.2.1 = { p with state := CHECKED } ∧
        (betting_round p l .Check).2.2.2 = l)
    ∧ (¬(l.current_max_bet = 0 ∧ p.current_bet = 0) →
        ∀ fuel, betting_message_step l p .Check fuel = some (l, p, false)) := by
  refine ⟨?_, ?_, ?_⟩
  · simp only [betting_round]
    split
    · rename_i h
      simp only [true_iff]
      exact ⟨h.2, h.1.trans h.2⟩
    · rename_i h
      simp only [Bool.false_eq_true, false_iff]
      intro hc
      exact h ⟨hc.2.trans hc.1.symm, hc.1⟩
  · simp only [betting_round]
    split
    · intro _; exact ⟨rfl, rfl⟩
    · intro h; simp at h
  · intro hrej fuel
    have hcond : ¬(p.current_bet = l.current_max_bet ∧ l.current_max_bet = 0) := by
      intro hc
      exact hrej ⟨hc.2, hc.1.trans hc.2⟩
    simp only [betting_message_step, betting_round, if_neg hcond]
    simp

/-- Witness for C3 at a concrete rejected check: `current_max_bet = 10`,
caller `current_bet = 0`. -/
theorem check_rejection_witness :
    ∀ fuel, betting_message_step { exFourSeats with current_max_bet := 10 }
      exSeatC .Check fuel =
      some ({ exFourSeats with current_max_bet := 10 }, exSeatC, false) := by
  exact (check_accepted_iff_no_outstanding_bet exSeatC
    { exFourSeats with current_max_bet := 10 }).2.2 (by decide)

/-- C4: with a wallet covering the call amount, `Call` moves exactly
`current_max_bet - current_bet` from the wallet into the pot, sets
`current_bet = current_max_bet`, and marks the seat `ALL_IN` exactly when
the wallet lands on `0` (wallet equal to the call amount) and `CALLED`
otherwise. -/
theorem call_pays_difference_and_allin_on_zero (p : Player) (l : Lobby)
    (hw : l.current_max_bet - p.current_bet ≤ p.wallet) :
    (betting_round p l .Call).1 = true
    ∧ (betting_round p l .Call).2.2.1.wallet =
        p.wallet - (l.current_max_bet - p.current_bet)
    ∧ (betting_round p l .Call).2.2.1.current_bet = l.current_max_bet
    ∧ (betting_round p l .Call).2.2.2.pot =
        l.pot + (l.current_max_bet - p.current_bet)
    ∧ ((betting_round p l .Call).2.2.1.state = ALL_IN ↔
        p.wallet = l.current_max_bet - p.current_bet)
    ∧ (p.wallet ≠ l.current_max_bet - p.current_bet →
        (betting_round p l .Call).2.2.1.state = CALLED) := by
  simp only [betting_round, if_pos hw]
  refine ⟨trivial, trivial, trivial, trivial, ?_, ?_⟩
  · constructor
    · intro h
      by_cases hz : p.wallet - (l.current_max_bet - p.current_bet) = 0
      · omega
      · rw [if_neg hz] at h
        exact absurd h (by decide)
    · intro h
      have hz : p.wallet - (l.current_max_bet - p.current_bet) = 0 := by omega
      rw [if_pos hz]
  · intro h
    have hz : ¬(p.wallet - (l.current_max_bet - p.current_bet) = 0) := by omega
    rw [if_neg hz]

/-- Witness for C4: a wallet exactly equal to the call amount goes
`ALL_IN`. -/
theorem call_exact_wallet_witness :
    (betting_round (mkPlayer "E" 10 IN_GAME 0 [])
      { Lobby.new FIVE_CARD_DRAW "w" with current_max_bet := 10 } .Call).2.2.1.state
      = ALL_IN := by
  exact (call_pays_difference_and_allin_on_zero (mkPlayer "E" 10 IN_GAME 0 [])
    { Lobby.new FIVE_CARD_DRAW "w" with current_max_bet := 10 }
    (by decide)).2.2.2.2.1.mpr (by decide)

/-- C5: in a well-formed betting state (`0 ≤ current_bet ≤
current_max_bet`), `Raise{amount}` is accepted exactly when `amount`
strictly exceeds `current_max_bet - current_bet` and is at most the
wallet; an accepted raise deducts `amount` from the wallet, adds it to
the pot and to the player bet, and lifts `current_max_bet` to the new
bet. -/
theorem raise_accepted_iff_exceeds_deficit (p : Player) (l : Lobby) (amount : Int)
    (h1 : p.current_bet ≤ l.current_max_bet) :
    ((betting_round p l (.Raise amount)).1 = true ↔
      l.current_max_bet - p.current_bet < amount ∧ amount ≤ p.wallet)
    ∧ ((betting_round p l (.Raise amount)).1 = true →
        (betting_round p l (.Raise amount)).2.2.1.wallet = p.wallet - amount
        ∧ (betting_round p l (.Raise amount)).2.2.1.current_bet =
            p.current_bet + amount
        ∧ (betting_round p l (.Raise amount)).2.2.2.pot = l.pot + amount
        ∧ (betting_round p l (.Raise amount)).2.2.2.current_max_bet =
            p.current_bet + amount) := by
  constructor
  · simp only [betting_round]
    split
    · rename_i hguard
      split
      · rename_i hdef
        simp only [true_iff]
        exact ⟨hdef, hguard.2⟩
      · rename_i hdef
        simp only [Bool.false_eq_true, false_iff]
        intro hc; exact hdef hc.1
    · rename_i hguard
      simp only [Bool.false_eq_true, false_iff]
      intro hc
      exact hguard ⟨by omega, hc.2⟩
  · simp only [betting_round]
    split
    · split
      · intro _; exact ⟨rfl, rfl, rfl, rfl⟩
      · intro h; simp at h
    · intro h; simp at h

/-- Witness for C5: with `current_max_bet = 10` and `current_bet = 0` the
minimum legal raise `11` is accepted and `10` is rejected. -/
theorem raise_boundary_witness :
    (betting_round exSeatC { exFourSeats with current_max_bet := 10 }
        (.Raise 11)).1 = true
    ∧ (betting_round exSeatC { exFourSeats with current_max_bet := 10 }
        (.Raise 10)).1 ≠ true := by
  constructor
  · exact (raise_accepted_iff_exceeds_deficit exSeatC
      { exFourSeats with current_max_bet := 10 } 11 (by decide)).1.mpr
      (by decide)
  · intro h
    have := (raise_accepted_iff_exceeds_deficit exSeatC
      { exFourSeats with current_max_bet := 10 } 10 (by decide)).1.mp h
    exact absurd this (by decide)

/-- Helper for C8: iterated dealing from a cursor `c` with `0 ≤ c ≤ 52`
over a 52-card vector succeeds for exactly `52 - c` further deals. -/
theorem dealIter_isSome_iff (n : Nat) :
    ∀ d : Deck, d.cards.length = 52 → 0 ≤ d.next_card_index →
      d.next_card_index ≤ 52 →
      ((d.dealIter n).isSome ↔ d.next_card_index + n ≤ 52) := by
  induction n with
  | zero =>
    intro d hlen h0 h52
    simp only [Deck.dealIter, Option.isSome_some, true_iff]
    omega
  | succ n ih =>
    intro d hlen h0 h52
    by_cases hc : 0 ≤ d.next_card_index ∧ d.next_card_index.toNat < d.cards.length
    · have hstep : d.deal = some (d.cards.getD d.next_card_index.toNat 0,
          { d with next_card_index := d.next_card_index + 1 }) := by
        simp only [Deck.deal, if_pos hc]
      simp only [Deck.dealIter, hstep]
      have h2 := ih { d with next_card_index := d.next_card_index + 1 }
        (by simpa using hlen)
        (by show 0 ≤ d.next_card_index + 1; omega)
        (by show d.next_card_index + 1 ≤ 52; omega)
      rw [h2]
      show d.next_card_index + 1 + (n : Int) ≤ 52 ↔ _
      omega
    · have hstep : d.deal = none := by
        simp only [Deck.deal, if_neg hc]
      simp only [Deck.dealIter, hstep, Option.isSome_none,
        Bool.false_eq_true, false_iff]
      omega

/-- C8: on a 52-card deck, `Deck::deal` succeeds exactly when the cursor
is below 52; a successful deal returns the card stored at the cursor and
advances the cursor by one without touching the card vector; and from a
fresh `Deck::new()` (cursor 0, the same shape `shuffle()` restores)
exactly 52 successive deals are possible. -/
theorem deal_total_iff_cursor_below_52 (d : Deck)
    (hlen : d.cards.length = 52) (h0 : 0 ≤ d.next_card_index) :
    (d.deal.isSome ↔ d.next_card_index < 52)
    ∧ (∀ c d', d.deal = some (c, d') →
        c = d.cards.getD d.next_card_index.toNat 0
        ∧ d'.next_card_index = d.next_card_index + 1
        ∧ d'.cards = d.cards)
    ∧ (∀ n : Nat, (Deck.new.dealIter n).isSome ↔ n ≤ 52) := by
  refine ⟨?_, ?_, ?_⟩
  · simp only [Deck.deal]
    split
    · rename_i hc
      simp only [Option.isSome_some, true_iff]
      omega
    · rename_i hc
      simp only [Option.isSome_none, Bool.false_eq_true, false_iff]
      omega
  · intro c d' hdeal
    simp only [Deck.deal] at hdeal
    split at hdeal
    · injection hdeal with h
      injection h with h1 h2
      subst h2
      exact ⟨h1.symm, rfl, rfl⟩
    · exact absurd hdeal (by simp)
  · intro n
    have := dealIter_isSome_iff n Deck.new (by decide) (by decide) (by decide)
    rw [this]
    show (0 : Int) + (n : Int) ≤ 52 ↔ _
    omega

/-- Witness for C8 at the fresh deck: the first deal succeeds, returns
card `0` and leaves the cursor at `1`; 52 deals succeed and 53 do not. -/
theorem deal_fresh_deck_witness :
    Deck.new.deal.isSome
    ∧ (Deck.new.dealIter 52).isSome
    ∧ ¬(Deck.new.dealIter 53).isSome := by
  have h := deal_total_iff_cursor_below_52 Deck.new (by decide) (by decide)
  refine ⟨h.1.mpr (by decide), (h.2.2 52).mpr (by decide), ?_⟩
  intro hcon
  exact absurd ((h.2.2 53).mp hcon) (by decide)

/-- C6 (code behavior at the failing input): in `exStudTie` the two
up-cards tie in rank (both Twos); seat 0 holds the Two of HEARTS and seat
1 the Two of SPADES, yet `bring_in` charges seat 0 - the scan at
src/games/mod.rs lines 672-681 compares only `hand[2] % 13` and keeps the
earlier seat on a tie, never consulting suits - and it leaves
`first_betting_player` untouched (still seat 1) instead of setting it to
the paying seat. -/
theorem bring_in_tie_ignores_suit_order :
    ((bring_in exStudTie).players.map fun p => (p.name, p.wallet, p.state, p.current_bet))
      = [("P1", 985, CALLED, 15), ("P2", 1000, IN_GAME, 0)]
    ∧ (bring_in exStudTie).first_betting_player = 1
    ∧ (bring_in exStudTie).pot = 15 := by
  refine ⟨rfl, rfl, rfl⟩

/-- C7 (code behavior at the failing input): `exFullLobby` sits at
capacity (`current_player_count = max_player_count = 5`, `game_state =
GAME_LOBBY_FULL`), yet a sixth non-spectating `JoinLobby` is admitted:
the guard at src/player/mod.rs lines 63-67 only rejects
`START_OF_ROUND ≤ game_state ≤ END_OF_ROUND`, and `GAME_LOBBY_FULL = 105`
escapes it, so `add_player` pushes a sixth seat and even resets the state
to `JOINABLE`. -/
theorem join_full_lobby_admitted :
    (player_join_lobby exFullLobby exJoiner false).1 = SUCCESS
    ∧ (player_join_lobby exFullLobby exJoiner false).2.players.length = 6
    ∧ (player_join_lobby exFullLobby exJoiner false).2.current_player_count = 6
    ∧ (player_join_lobby exFullLobby exJoiner false).2.game_state = JOINABLE := by
  refine ⟨rfl, rfl, rfl, rfl⟩

/-- C2 counterexample: `bring_in` deducts the fixed bring-in of 15 with
no wallet check (src/games/mod.rs line 683), so on `exBrokeStud` - whose
only seat has wallet `0` - the resulting wallet is `-15`, violating the
claimed invariant `0 ≤ player.wallet`. -/
theorem bring_in_overdraws_wallet :
    ((bring_in exBrokeStud).players.map Player.wallet) = [-15]
    ∧ ¬(∀ q ∈ (bring_in exBrokeStud).players, 0 ≤ q.wallet) := by
  exact ⟨rfl, by decide⟩

/-- C2 amended: the guarded money moves - every `betting_round` action
and the ante - do preserve non-negativity of the pot, the wallet and the
current bet (in a well-formed betting state `0 ≤ current_bet ≤
current_max_bet`); the unguarded deductions (`bring_in`, `blinds`) are
exactly the ones that can overdraw. -/
theorem betting_and_ante_preserve_nonnegativity (p : Player) (l : Lobby)
    (hpot : 0 ≤ l.pot) (hw : 0 ≤ p.wallet) (hb : 0 ≤ p.current_bet)
    (hbm : p.current_bet ≤ l.current_max_bet) :
    (∀ a : ClientMessage,
        0 ≤ (betting_round p l a).2.2.1.wallet
        ∧ 0 ≤ (betting_round p l a).2.2.1.current_bet
        ∧ 0 ≤ (betting_round p l a).2.2.2.pot)
    ∧ (0 ≤ (ante_step l p).2.wallet ∧ 0 ≤ (ante_step l p).1.pot) := by
  constructor
  · intro a
    cases a with
    | Check =>
      simp only [betting_round]
      split <;> dsimp only <;> omega
    | Fold =>
      dsimp only [betting_round]
      omega
    | Call =>
      simp only [betting_round]
      split <;> dsimp only <;> omega
    | Raise amount =>
      simp only [betting_round]
      split
      · split <;> dsimp only <;> omega
      · dsimp only
        omega
    | AllIn =>
      simp only [betting_round]
      split <;> dsimp only <;> omega
    | Other =>
      dsimp only [betting_round]
      omega
  · simp only [ante_step]
    split <;> dsimp only <;> omega

/-- Witness for the amended C2 at a concrete seat and lobby. -/
theorem betting_nonnegativity_witness :
    0 ≤ (betting_round exSeatC exFourSeats .AllIn).2.2.1.wallet
    ∧ 0 ≤ (betting_round exSeatC exFourSeats .AllIn).2.2.2.pot := by
  have h := betting_and_ante_preserve_nonnegativity exSeatC exFourSeats
    (by decide) (by decide) (by decide) (by decide)
  exact ⟨(h.1 .AllIn).1, (h.1 .AllIn).2.2⟩

/-- A successful Rust-style index read witnesses membership. -/
theorem idxGet_mem {ps : List Player} {i : Int} {p : Player}
    (h : idxGet ps i = some p) : p ∈ ps := by
  unfold idxGet at h
  split at h
  · exact List.getElem?_mem h
  · cases h

/-- An in-range index reads the corresponding seat. -/
theorem idxGet_of_lt (ps : List Player) (i : Int) (hi0 : 0 ≤ i)
    (hilt : i < (ps.length : Int)) :
    ∃ p, idxGet ps i = some p := by
  have hlt : i.toNat < ps.length := by omega
  exact ⟨ps[i.toNat], by unfold idxGet; rw [if_pos hi0]; exact List.getElem?_eq_getElem hlt⟩

/-- Frame property of the seek loop of `get_next_player`: a successful
search only moves `current_player_index` and `current_player_turn`. -/
theorem get_next_player_loop_frame (l : Lobby) :
    ∀ (fuel : Nat) (i : Int) (l' : Lobby),
      get_next_player_loop l i fuel = some l' →
      ∃ j t, l' = { l with current_player_index := j, current_player_turn := t } := by
  intro fuel
  induction fuel with
  | zero =>
    intro i l' h
    simp only [get_next_player_loop] at h
    cases h
  | succ fuel ih =>
    intro i l' h
    simp only [get_next_player_loop] at h
    cases hg : idxGet l.players i with
    | none => simp only [hg] at h; cases h
    | some p =>
      simp only [hg] at h
      by_cases hs : p.state ≠ FOLDED
      · rw [if_pos hs] at h
        injection h with h
        exact ⟨i, p.name, h.symm⟩
      · rw [if_neg hs] at h
        exact ih _ _ h

/-- The seek loop of `get_next_player` only ever selects a non-`FOLDED`
seat, and records exactly that seat and its name. -/
theorem get_next_player_loop_result (l : Lobby) :
    ∀ (fuel : Nat) (i : Int) (l' : Lobby),
      get_next_player_loop l i fuel = some l' →
      ∃ q, idxGet l.players l'.current_player_index = some q
         ∧ q.state ≠ FOLDED ∧ l'.current_player_turn = q.name := by
  intro fuel
  induction fuel with
  | zero =>
    intro i l' h
    simp only [get_next_player_loop] at h
    cases h
  | succ fuel ih =>
    intro i l' h
    simp only [get_next_player_loop] at h
    cases hg : idxGet l.players i with
    | none => simp only [hg] at h; cases h
    | some p =>
      simp only [hg] at h
      by_cases hs : p.state ≠ FOLDED
      · rw [if_pos hs] at h
        injection h with h
        subst h
        exact ⟨p, hg, hs, rfl⟩
      · rw [if_neg hs] at h
        exact ih _ _ h

/-- When every seat is `FOLDED` the seek loop never exits, whatever the
fuel: the Rust loop spins forever. -/
theorem get_next_player_loop_all_folded (l : Lobby)
    (hall : ∀ q ∈ l.players, q.state = FOLDED) :
    ∀ (fuel : Nat) (i : Int), get_next_player_loop l i fuel = none := by
  intro fuel
  induction fuel with
  | zero =>
    intro i
    simp only [get_next_player_loop]
  | succ fuel ih =>
    intro i
    simp only [get_next_player_loop]
    cases hg : idxGet l.players i with
    | none => simp only [hg]
    | some p =>
      have hp : p.state = FOLDED := hall p (idxGet_mem hg)
      simp only [hg]
      rw [if_neg (by simpa using hp)]
      exact ih _

/-- Fuel-indexed success of the seek loop: if some seat reachable within
`fuel` forward steps (mod `current_player_count`) is non-`FOLDED`, the
loop exits within `fuel` iterations. -/
theorem get_next_player_loop_success (l : Lobby)
    (hcount : l.current_player_count = (l.players.length : Int)) :
    ∀ (fuel : Nat) (i : Int), 0 ≤ i → i < l.current_player_count →
      (∃ k : Nat, k < fuel ∧ ∃ q,
          idxGet l.players ((i + (k : Int)) % l.current_player_count) = some q
          ∧ q.state ≠ FOLDED) →
      ∃ l', get_next_player_loop l i fuel = some l' := by
  intro fuel
  induction fuel with
  | zero =>
    intro i _ _ hex
    obtain ⟨k, hk, _⟩ := hex
    omega
  | succ fuel ih =>
    intro i hi0 hilt hex
    obtain ⟨k, hk, q, hq, hqs⟩ := hex
    have hpos : 0 < l.current_player_count := lt_of_le_of_lt hi0 hilt
    obtain ⟨p, hip⟩ := idxGet_of_lt l.players i hi0 (by omega)
    by_cases hs : p.state ≠ FOLDED
    · refine ⟨{ l with current_player_index := i, current_player_turn := p.name }, ?_⟩
      simp only [get_next_player_loop, hip]
      rw [if_pos hs]
    · push_neg at hs
      have hk0 : k ≠ 0 := by
        intro h0
        subst h0
        rw [Int.natCast_zero, Int.add_zero, Int.emod_eq_of_lt hi0 hilt, hip] at hq
        injection hq with hq
        subst hq
        exact hqs hs
      obtain ⟨k', rfl⟩ : ∃ k', k = k' + 1 := ⟨k - 1, by omega⟩
      have hstep :
          get_next_player_loop l i (fuel + 1) =
          get_next_player_loop l ((i + 1) % l.current_player_count) fuel := by
        simp only [get_next_player_loop, hip]
        rw [if_neg (by simpa using hs)]
      rw [hstep]
      refine ih ((i + 1) % l.current_player_count)
        (Int.emod_nonneg _ (by omega)) (Int.emod_lt_of_pos _ hpos) ⟨k', by omega, q, ?_, hqs⟩
      have harith :
          ((i + 1) % l.current_player_count + (k' : Int)) % l.current_player_count
          = (i + ((k' : Int) + 1)) % l.current_player_count := by
        rw [Int.emod_add_emod]
        congr 1
        ring
      rw [harith]
      have hcast : ((k' + 1 : Nat) : Int) = (k' : Int) + 1 := by push_cast; ring
      rw [hcast] at hq
      exact hq

/-- With fuel at least `players.length` and an in-range start, the seek
loop exits whenever some seat is non-`FOLDED`. -/
theorem get_next_player_loop_reaches (l : Lobby) (fuel : Nat)
    (hcount : l.current_player_count = (l.players.length : Int))
    (hfuel : l.players.length ≤ fuel)
    (i : Int) (hi0 : 0 ≤ i) (hilt : i < l.current_player_count)
    (hex : ∃ q ∈ l.players, q.state ≠ FOLDED) :
    ∃ l', get_next_player_loop l i fuel = some l' := by
  obtain ⟨q, hqmem, hqs⟩ := hex
  obtain ⟨j, hj, hjq⟩ := List.mem_iff_getElem.mp hqmem
  have hpos : 0 < l.current_player_count := lt_of_le_of_lt hi0 hilt
  have hjn : (j : Int) < l.current_player_count := by omega
  have hn0 : l.current_player_count ≠ 0 := by omega
  refine get_next_player_loop_success l hcount fuel i hi0 hilt
    ⟨(((j : Int) - i) % l.current_player_count).toNat, ?_, q, ?_, hqs⟩
  · have h1 : ((j : Int) - i) % l.current_player_count < l.current_player_count :=
      Int.emod_lt_of_pos _ hpos
    omega
  · have hnn : 0 ≤ ((j : Int) - i) % l.current_player_count :=
      Int.emod_nonneg _ hn0
    rw [Int.toNat_of_nonneg hnn]
    have harith :
        (i + ((j : Int) - i) % l.current_player_count) % l.current_player_count
        = (j : Int) := by
      conv_lhs => rw [Int.add_emod]
      rw [Int.emod_emod_of_dvd _ dvd_rfl, ← Int.add_emod]
      have : i + ((j : Int) - i) = (j : Int) := by ring
      rw [this]
      exact Int.emod_eq_of_lt (by omega) hjn
    rw [harith]
    unfold idxGet
    rw [if_pos (by omega : (0:Int) ≤ (j : Int))]
    have : ((j : Int)).toNat = j := by omega
    rw [this]
    rw [List.getElem?_eq_getElem hj, hjq]

/-- C10: `Lobby::get_next_player` terminates exactly when some seated
player is not `FOLDED` (the fuel-indexed loop exits for some fuel); it
then leaves `current_player_index` on a non-`FOLDED` seat with
`current_player_turn` that seat's name, and when every seat is `FOLDED`
no amount of fuel makes the loop exit - the Rust loop spins forever. -/
theorem get_next_player_terminates_iff_unfolded_seat (l : Lobby) (reset : Bool)
    (hcount : l.current_player_count = (l.players.length : Int))
    (hfbp0 : 0 ≤ l.first_betting_player)
    (hfbp : l.first_betting_player < l.current_player_count)
    (_hcpi : 0 ≤ l.current_player_index)
    (hne : l.players ≠ []) :
    ((∃ q ∈ l.players, q.state ≠ FOLDED) ↔
      ∃ fuel l', get_next_player l reset fuel = some l')
    ∧ (∀ fuel l', get_next_player l reset fuel = some l' →
        ∃ q, idxGet l.players l'.current_player_index = some q
           ∧ q.state ≠ FOLDED ∧ l'.current_player_turn = q.name) := by
  have hpos : 0 < l.current_player_count := by
    have := List.length_pos.mpr hne
    omega
  constructor
  · constructor
    · intro hex
      cases reset with
      | true =>
        obtain ⟨l', hl'⟩ :=
          get_next_player_loop_reaches l l.players.length hcount (le_refl _)
            l.first_betting_player hfbp0 hfbp hex
        exact ⟨l.players.length, l', hl'⟩
      | false =>
        obtain ⟨l', hl'⟩ :=
          get_next_player_loop_reaches l l.players.length hcount (le_refl _)
            ((l.current_player_index + 1) % l.current_player_count)
            (Int.emod_nonneg _ (by omega)) (Int.emod_lt_of_pos _ hpos) hex
        exact ⟨l.players.length, l', hl'⟩
    · rintro ⟨fuel, l', hl'⟩
      by_contra hall
      push_neg at hall
      have := get_next_player_loop_all_folded l hall fuel
        (if reset then l.first_betting_player
         else (l.current_player_index + 1) % l.current_player_count)
      rw [get_next_player] at hl'
      rw [this] at hl'
      cases hl'
  · intro fuel l' hl'
    rw [get_next_player] at hl'
    exact get_next_player_loop_result l fuel _ l' hl'

/-- `update_player_reference` replaces one seat in place and keeps the
seat count. -/
theorem update_player_reference_length (ps : List Player) (p : Player) :
    (update_player_reference ps p).length = ps.length := by
  simp [update_player_reference]

/-- After a betting action that reset `turns_remaining` to
`current_player_count`, the post-action bookkeeping of the betting phase
decrements the counter once and never touches it again: whichever branch
runs (end-of-game showdown, or cursor advance), the resulting
`turns_remaining` is `current_player_count - 1`. -/
theorem post_action_after_reset (l0 : Lobby) (fuel : Nat)
    (hcount0 : l0.current_player_count = (l0.players.length : Int))
    (_hcpi0 : 0 ≤ l0.current_player_index)
    (hturns0 : l0.turns_remaining = l0.current_player_count)
    (hfuel : l0.players.length ≤ fuel) :
    ∃ l', betting_post_action l0 fuel = some l'
        ∧ l'.turns_remaining = l0.current_player_count - 1 := by
  cases hce : check_end_game { l0 with turns_remaining := l0.turns_remaining - 1 } with
  | true =>
    refine ⟨{ clear_betting { l0 with turns_remaining := l0.turns_remaining - 1 } with
              game_state := SHOWDOWN }, ?_, ?_⟩
    · simp only [betting_post_action, hce, if_true]
    · show l0.turns_remaining - 1 = l0.current_player_count - 1
      omega
  | false =>
    have hfilter : 2 ≤ (l0.players.filter fun q => q.state ≠ FOLDED).length := by
      have h := hce
      simp only [check_end_game] at h
      dsimp only at h
      rw [decide_eq_false_iff_not] at h
      omega
    have hlen2 : 2 ≤ l0.players.length :=
      le_trans hfilter (List.length_filter_le _ _)
    have hcnt2 : 2 ≤ l0.current_player_count := by omega
    have hne0 :
        ¬(({ l0 with turns_remaining := l0.turns_remaining - 1 } : Lobby).turns_remaining = 0) := by
      dsimp only
      omega
    obtain ⟨q, hq⟩ := List.exists_mem_of_length_pos
      (show 0 < (l0.players.filter fun q => q.state ≠ FOLDED).length by omega)
    have hqmem : q ∈ l0.players := (List.mem_filter.mp hq).1
    have hqs : q.state ≠ FOLDED := of_decide_eq_true (List.mem_filter.mp hq).2
    have hpos : 0 < l0.current_player_count := by omega
    obtain ⟨l', hl'⟩ := get_next_player_loop_reaches
      { l0 with turns_remaining := l0.turns_remaining - 1 } fuel hcount0 hfuel
      ((l0.current_player_index + 1) % l0.current_player_count)
      (Int.emod_nonneg _ (by omega)) (Int.emod_lt_of_pos _ hpos) ⟨q, hqmem, hqs⟩
    refine ⟨l', ?_, ?_⟩
    · simp only [betting_post_action, hce, Bool.false_eq_true, if_false]
      rw [if_neg hne0]
      exact hl'
    · obtain ⟨j, t, rfl⟩ := get_next_player_loop_frame _ _ _ _ hl'
      dsimp only
      omega

/-- Common continuation for C1: a `betting_round` outcome with
`valid = true` and `reset = true` drives the betting-phase message step
to completion with `turns_remaining = current_player_count - 1`. -/
theorem message_step_after_lifting (l : Lobby) (p : Player) (msg : ClientMessage)
    (P : Player) (L1 : Lobby)
    (hbr : betting_round p l msg = (true, true, P, L1))
    (hplayers : L1.players = l.players)
    (hcnt : L1.current_player_count = l.current_player_count)
    (hcpi1 : L1.current_player_index = l.current_player_index)
    (hcount : l.current_player_count = (l.players.length : Int))
    (hcpi : 0 ≤ l.current_player_index) :
    ∃ l', betting_message_step l p msg l.players.length = some (l', P, true)
        ∧ l'.turns_remaining = l.current_player_count - 1 := by
  obtain ⟨l', hpost, hturn⟩ :=
    post_action_after_reset
      { L1 with players := update_player_reference L1.players P,
                turns_remaining := L1.current_player_count }
      l.players.length
      (by show L1.current_player_count = ((update_player_reference L1.players P).length : Int)
          rw [update_player_reference_length, hplayers, hcnt]
          exact hcount)
      (by show 0 ≤ L1.current_player_index
          rw [hcpi1]
          exact hcpi)
      rfl
      (by show (update_player_reference L1.players P).length ≤ l.players.length
          rw [update_player_reference_length, hplayers])
  refine ⟨l', ?_, ?_⟩
  · simp only [betting_message_step]
    rw [hbr]
    show (match betting_post_action
        { L1 with players := update_player_reference L1.players P,
                  turns_remaining := L1.current_player_count } l.players.length with
      | some l4 => some (l4, P, true)
      | none => none) = some (l', P, true)
    rw [hpost]
  · rw [hturn]
    show L1.current_player_count - 1 = l.current_player_count - 1
    rw [hcnt]

/-- C1: after a legal `Raise` - or an `AllIn` that lifts
`current_max_bet` - by the on-turn seat in a betting phase, the message
step completes with `turns_remaining = current_player_count - 1`: every
other seat owes another action. -/
theorem betting_raise_resets_turn_counter (l : Lobby) (p : Player)
    (msg : ClientMessage)
    (hcount : l.current_player_count = (l.players.length : Int))
    (hcpi : 0 ≤ l.current_player_index)
    (hlegal : (∃ a, msg = .Raise a ∧ 0 < a ∧ a ≤ p.wallet
                    ∧ l.current_max_bet - p.current_bet < a)
            ∨ (msg = .AllIn ∧ l.current_max_bet < p.current_bet + p.wallet)) :
    ∃ l' p', betting_message_step l p msg l.players.length = some (l', p', true)
           ∧ l'.turns_remaining = l.current_player_count - 1 := by
  rcases hlegal with ⟨a, rfl, h1, h2, h3⟩ | ⟨rfl, hlift⟩
  · have hbr : betting_round p l (.Raise a) = (true, true,
        { p with wallet := p.wallet - a, current_bet := p.current_bet + a,
                 state := if p.wallet - a = 0 then ALL_IN else RAISED },
        { l with pot := l.pot + a, current_max_bet := p.current_bet + a }) := by
      simp only [betting_round]
      rw [if_pos ⟨h1, h2⟩, if_pos h3]
    obtain ⟨l', hstep, hturn⟩ := message_step_after_lifting l p _ _ _ hbr rfl rfl rfl
      hcount hcpi
    exact ⟨l', _, hstep, hturn⟩
  · have hbr : betting_round p l .AllIn = (true, true,
        { p with state := ALL_IN, wallet := 0, current_bet := p.current_bet + p.wallet },
        { l with pot := l.pot + p.wallet, current_max_bet := p.current_bet + p.wallet }) := by
      simp only [betting_round]
      rw [if_pos hlift]
    obtain ⟨l', hstep, hturn⟩ := message_step_after_lifting l p _ _ _ hbr rfl rfl rfl
      hcount hcpi
    exact ⟨l', _, hstep, hturn⟩

/-- Witness for C1 at the four-seat scenario: seats `A` and `B` have
checked, seat `C` raises 10; the step completes and `turns_remaining`
becomes `3`. -/
theorem raise_resets_witness :
    ∃ l' p', betting_message_step exFourSeats exSeatC (.Raise 10)
        exFourSeats.players.length = some (l', p', true)
      ∧ l'.turns_remaining = 3 := by
  obtain ⟨l', p', hstep, hturn⟩ := betting_raise_resets_turn_counter exFourSeats exSeatC
    (.Raise 10) (by decide) (by decide)
    (Or.inl ⟨10, rfl, by decide, by decide, by decide⟩)
  exact ⟨l', p', hstep, by rw [hturn]; decide⟩

/-- Witness for C10 at the four-seat scenario: at least one seat is not
`FOLDED`, so `get_next_player` terminates for some fuel. -/
theorem get_next_player_witness :
    ∃ fuel l', get_next_player exFourSeats false fuel = some l' := by
  have h := get_next_player_terminates_iff_unfolded_seat exFourSeats false
    (by decide) (by decide) (by decide) (by decide) (by decide)
  exact h.1.mp ⟨exSeatC, by decide, by decide⟩

/-- Sorting the rank multiset is permutation-invariant: two permuted
hands have the same sorted rank vector. -/
theorem hand_ranks_sorted_perm {h h' : List Int} (hp : h.Perm h') :
    hand_ranks_sorted h = hand_ranks_sorted h' := by
  unfold hand_ranks_sorted
  exact List.eq_of_perm_of_sorted
    ((List.perm_insertionSort _ _).trans
      ((hp.map rank_of).trans (List.perm_insertionSort _ _).symm))
    (List.sorted_insertionSort _ _) (List.sorted_insertionSort _ _)

/-- The default head of a nonempty list is a member. -/
theorem headD_mem_of_ne_nil {t : List Int} (ht : t ≠ []) : t.headD 0 ∈ t := by
  cases t with
  | nil => exact absurd rfl ht
  | cons a ts => simp

/-- Transport of the `suits[0]`-style constancy test along a
permutation. -/
theorem all_eq_headD_of_perm {s t : List Int} (hp : s.Perm t) (ht : t ≠ [])
    (hall : ∀ x ∈ s, x = s.headD 0) : ∀ x ∈ t, x = t.headD 0 := by
  intro x hx
  have h1 : x = s.headD 0 := hall x (hp.mem_iff.mpr hx)
  have h2 : t.headD 0 = s.headD 0 :=
    hall _ (hp.mem_iff.mpr (headD_mem_of_ne_nil ht))
  rw [h1, h2]

/-- The flush test of `get_hand_type` (every suit equals `suits[0]`) is
permutation-invariant for nonempty hands. -/
theorem hand_is_flush_perm {h h' : List Int} (hp : h.Perm h') (hne : h ≠ []) :
    hand_is_flush h = hand_is_flush h' := by
  have hne' : h' ≠ [] := by
    intro hn
    subst hn
    exact hne hp.eq_nil
  have hps : (h.map (· / 13)).Perm (h'.map (· / 13)) := hp.map _
  have hs : h.map (· / 13) ≠ [] := by
    cases h with
    | nil => exact absurd rfl hne
    | cons a ts => simp
  have ht : h'.map (· / 13) ≠ [] := by
    cases h' with
    | nil => exact absurd rfl hne'
    | cons a ts => simp
  unfold hand_is_flush
  rw [Bool.eq_iff_iff]
  simp only [List.all_eq_true, decide_eq_true_eq]
  exact ⟨fun hall => all_eq_headD_of_perm hps ht hall,
         fun hall => all_eq_headD_of_perm hps.symm hs hall⟩

/-- C9: the hand evaluator `get_hand_type` returns the same six-tuple
score on any permutation of a 5-card hand - it reads the hand only
through the sorted rank vector and the all-suits-equal test, both
permutation-invariant. -/
theorem get_hand_type_perm_invariant (h h' : List Int) (hp : h.Perm h')
    (hlen : h.length = 5) :
    get_hand_type h = get_hand_type h' := by
  have hne : h ≠ [] := by
    intro hn
    subst hn
    simp at hlen
  have h1 : hand_ranks_sorted h = hand_ranks_sorted h' := hand_ranks_sorted_perm hp
  have h2 : hand_is_flush h = hand_is_flush h' := hand_is_flush_perm hp hne
  simp only [get_hand_type, h1, h2]

/-- Witness for C9: a concrete flush hand and a permutation of it score
identically. -/
theorem get_hand_type_perm_witness :
    get_hand_type [6, 1, 2, 3, 4] = get_hand_type [4, 3, 2, 1, 6] :=
  get_hand_type_perm_invariant [6, 1, 2, 3, 4] [4, 3, 2, 1, 6]
    (by decide) (by decide)

end Poker
